import Mathlib

/-!
Shallow embedding of the FP-Lib fixed-point math kernel (dsPIC33) and proofs
about it.

Conventions of the embedding:
* a Q0.15 value (C type `_Q15`, signed 16-bit) is an `Int` in [-32768, 32767];
* a Q0.16 value (C type `_Q16`, unsigned 16-bit) is a `Nat` below 65536;
* a Q16.16 value (C type `_Q1616`, unsigned 32-bit) is a `Nat` below 2^32;
* machine wrap-around is written explicitly with `% 65536` / `% 4294967296`;
* arithmetic shift right is floor division, which for a positive divisor is
  the `Int` division `/` (Euclidean division) of this library.

The dsPIC33 inline-assembly routines are embedded instruction by instruction,
using the documented semantics of the instructions involved (`lsr`, `sl`,
`mul.us`, `div.u`, `divf`, `mulw.uu`, `lac`/`mac`/`msc`/`sac.r` with the DSP
engine in its reset configuration: signed fractional multiply, convergent
rounding and data-write saturation on `sac.r`).
-/

namespace FPLib

/-- Low 16-bit half of a 32-bit value (`ULong.low` in fp_lib_types.h). -/
def uLow (x : Nat) : Nat := x % 65536

/-- High 16-bit half of a 32-bit value (`ULong.high` in fp_lib_types.h). -/
def uHigh (x : Nat) : Nat := x / 65536 % 65536

/-- Reinterpret an integer, wrapped to 16 bits, as a signed 16-bit value
(two's complement). This is the implicit step of storing a machine word into
an `int16_t` register. -/
def toInt16W (z : Int) : Int :=
  if z % 65536 < 32768 then z % 65536 else z % 65536 - 65536

/-- Embedding of `convert_Q15_Q16_Naive` (fp_lib_typeconv.h):
`res = (arg << 1) + (arg >> 14)` stored into a `uint16_t`.  The left shift
may overflow the signed 16-bit intermediate, and the final store wraps, so
the result is the whole expression modulo 2^16; `>> 14` is an arithmetic
shift, i.e. floor division by 16384. -/
def convert_Q15_Q16_Naive (arg : Int) : Nat :=
  ((2 * arg + arg / 16384) % 65536).toNat

/-- Embedding of `convert_Q15_Q16` (fp_lib_typeconv.h): the naive conversion
masked with `sat = ~(arg >> 15)`, the sign-derived all-0s/all-1s mask
(`~y` on a 16-bit word is `(-1 - y)` wrapped to 16 bits). -/
def convert_Q15_Q16 (arg : Int) : Nat :=
  convert_Q15_Q16_Naive arg &&& ((-1 - arg / 32768) % 65536).toNat

/-- Embedding of `convert_Q16_Q15` (fp_lib_typeconv.h): `arg >> 1` on the
unsigned 16-bit argument, the result reinterpreted as (nonnegative) Q0.15. -/
def convert_Q16_Q15 (arg : Nat) : Int := (arg % 65536 / 2 : Nat)

/-- Embedding of `abs_Q15` (fp_lib_abs.h).  The assembly first replaces the
value 0x8000 by 0x7FFF (`cpsne`/`mov`), then computes `mask = val >> 15`
(arithmetic, so all-ones for a negative value), `val += mask`,
`val ^= mask` — the standard branch-free two's-complement absolute value.
We work on the unsigned 16-bit pattern of the argument. -/
def abs_Q15 (x : Int) : Int :=
  let v : Nat := if (x % 65536).toNat = 32768 then 32767 else (x % 65536).toNat
  let mask : Nat := if 32768 ≤ v then 65535 else 0
  toInt16W (((v + mask) % 65536) ^^^ mask : Nat)

/-- Embedding of `div_Q16_Q16` (fp_lib_div.h).  `repeat; div.u` performs the
full 16-bit unsigned division of `num` by `den` leaving quotient (w0) and
remainder (w1); the quotient is stored as the high word of the result.  Then
remainder and denominator are halved (`lsr`) and `repeat; divf` performs the
signed fractional division, giving `w0 = (w1 << 15) / den` truncated; the
final `sl w0, #1` doubles it (wrapping in 16 bits) into the low word. -/
def div_Q16_Q16 (num den : Nat) : Nat :=
  num / den % 65536 * 65536 + num % den / 2 * 32768 / (den / 2) * 2 % 65536

/-- Embedding of `mul_Q1616_Q16` (fp_lib_mul.h): high half times the 16-bit
factor (`__builtin_muluu`, exact 16×16→32 product) plus the high half of the
low-half product, summed as `uint32_t` (wrap modulo 2^32). -/
def mul_Q1616_Q16 (arg1 arg2 : Nat) : Nat :=
  (uHigh arg1 * arg2 + uHigh (uLow arg1 * arg2)) % 4294967296

/-- Embedding of `mul_Q1616_UINT` (fp_lib_mul.h): `res = muluu(low(arg1),
arg2)` and then, in assembly, `mulw.uu` computes the 16-bit truncated product
of `high(arg1)` and `arg2`, which is added into the high word of `res` with a
16-bit `add` (no carry beyond the high word). -/
def mul_Q1616_UINT (arg1 arg2 : Nat) : Nat :=
  uLow (uLow arg1 * arg2) +
    (uHigh (uLow arg1 * arg2) + uHigh arg1 * arg2 % 65536) % 65536 * 65536

/-- Embedding of `mul_Q1616_Q1616` (fp_lib_mul.h): long multiplication via
`mul_Q1616_UINT` on the high half and `mul_Q1616_Q16` on the low half of the
second factor, summed as `uint32_t` (wrap modulo 2^32). -/
def mul_Q1616_Q1616 (arg1 arg2 : Nat) : Nat :=
  (mul_Q1616_UINT arg1 (uHigh arg2) + mul_Q1616_Q16 arg1 (uLow arg2)) % 4294967296

/-- Saturation applied by `sac.r` when storing the accumulator to a 16-bit
destination (data-write saturation is enabled in the dsPIC reset state). -/
def sat16 (z : Int) : Int :=
  if z < -32768 then -32768 else if 32767 < z then 32767 else z

/-- Convergent rounding performed by `sac.r A, #0, w` (reset rounding mode):
the accumulator bits 31..16 are taken, rounding to nearest with ties going
to the even value. -/
def convRound (acc : Int) : Int :=
  if acc % 65536 < 32768 then acc / 65536
  else if 32768 < acc % 65536 then acc / 65536 + 1
  else if acc / 65536 % 2 = 0 then acc / 65536 else acc / 65536 + 1

/-- Embedding of `interpLinear` (fp_lib_interp.h).  The Q0.16 coordinate is
pre-shifted at the call boundary (`"z"(x >> 1)`); `lac y1, #0, A` loads
`y1 * 2^16` into the 40-bit accumulator; `msc`/`mac` subtract and add the
fractional products `2 * y1 * xs` and `2 * y2 * xs` (signed fractional
multiply doubles the 16×16 product); `sac.r A, #0, y` stores the rounded,
saturated high part. -/
def interpLinear (y1 y2 : Int) (x : Nat) : Int :=
  sat16 (convRound
    (y1 * 65536 - 2 * (y1 * ((x % 65536 / 2 : Nat) : Int)) +
      2 * (y2 * ((x % 65536 / 2 : Nat) : Int))))

set_option maxHeartbeats 2000000 in
/-- The 512-entry extrapolation table embedded in `sin_Q15` (fp_lib_trig.h),
organised as `dy[0] y0[0] dy[1] y0[1] ... dy[255] y0[255]`. -/
def sinTable : List Int := [
  804, 0, 804, 804, 802, 1608, 802, 2410,
  799, 3212, 797, 4011, 794, 4808, 791, 5602,
  786, 6393, 783, 7179, 777, 7962, 773, 8739,
  766, 9512, 761, 10278, 754, 11039, 746, 11793,
  740, 12539, 731, 13279, 722, 14010, 714, 14732,
  705, 15446, 695, 16151, 684, 16846, 674, 17530,
  664, 18204, 651, 18868, 640, 19519, 628, 20159,
  616, 20787, 602, 21403, 589, 22005, 576, 22594,
  561, 23170, 548, 23731, 532, 24279, 518, 24811,
  503, 25329, 487, 25832, 471, 26319, 455, 26790,
  438, 27245, 422, 27683, 405, 28105, 388, 28510,
  370, 28898, 353, 29268, 335, 29621, 317, 29956,
  298, 30273, 281, 30571, 261, 30852, 243, 31113,
  224, 31356, 205, 31580, 186, 31785, 166, 31971,
  148, 32137, 127, 32285, 109, 32412, 88, 32521,
  69, 32609, 50, 32678, 29, 32728, 10, 32757,
  -10, 32767, -29, 32757, -50, 32728, -69, 32678,
  -88, 32609, -109, 32521, -127, 32412, -148, 32285,
  -166, 32137, -186, 31971, -205, 31785, -224, 31580,
  -243, 31356, -261, 31113, -281, 30852, -298, 30571,
  -317, 30273, -335, 29956, -353, 29621, -370, 29268,
  -388, 28898, -405, 28510, -422, 28105, -438, 27683,
  -455, 27245, -471, 26790, -487, 26319, -503, 25832,
  -518, 25329, -532, 24811, -548, 24279, -561, 23731,
  -576, 23170, -589, 22594, -602, 22005, -616, 21403,
  -628, 20787, -640, 20159, -651, 19519, -664, 18868,
  -674, 18204, -684, 17530, -695, 16846, -705, 16151,
  -714, 15446, -722, 14732, -731, 14010, -740, 13279,
  -746, 12539, -754, 11793, -761, 11039, -766, 10278,
  -773, 9512, -777, 8739, -783, 7962, -786, 7179,
  -791, 6393, -794, 5602, -797, 4808, -799, 4011,
  -802, 3212, -802, 2410, -804, 1608, -804, 804,
  -804, 0, -804, -804, -802, -1608, -802, -2410,
  -799, -3212, -797, -4011, -794, -4808, -791, -5602,
  -786, -6393, -783, -7179, -777, -7962, -773, -8739,
  -766, -9512, -761, -10278, -754, -11039, -746, -11793,
  -740, -12539, -731, -13279, -722, -14010, -714, -14732,
  -705, -15446, -695, -16151, -684, -16846, -674, -17530,
  -664, -18204, -651, -18868, -640, -19519, -628, -20159,
  -616, -20787, -602, -21403, -589, -22005, -576, -22594,
  -561, -23170, -548, -23731, -532, -24279, -518, -24811,
  -503, -25329, -487, -25832, -471, -26319, -455, -26790,
  -438, -27245, -422, -27683, -405, -28105, -388, -28510,
  -370, -28898, -353, -29268, -335, -29621, -317, -29956,
  -298, -30273, -281, -30571, -261, -30852, -243, -31113,
  -224, -31356, -205, -31580, -186, -31785, -166, -31971,
  -148, -32137, -127, -32285, -109, -32412, -88, -32521,
  -69, -32609, -50, -32678, -29, -32728, -10, -32757,
  10, -32767, 29, -32757, 50, -32728, 69, -32678,
  88, -32609, 109, -32521, 127, -32412, 148, -32285,
  166, -32137, 186, -31971, 205, -31785, 224, -31580,
  243, -31356, 261, -31113, 281, -30852, 298, -30571,
  317, -30273, 335, -29956, 353, -29621, 370, -29268,
  388, -28898, 405, -28510, 422, -28105, 438, -27683,
  455, -27245, 471, -26790, 487, -26319, 503, -25832,
  518, -25329, 532, -24811, 548, -24279, 561, -23731,
  576, -23170, 589, -22594, 602, -22005, 616, -21403,
  628, -20787, 640, -20159, 651, -19519, 664, -18868,
  674, -18204, 684, -17530, 695, -16846, 705, -16151,
  714, -15446, 722, -14732, 731, -14010, 740, -13279,
  746, -12539, 754, -11793, 761, -11039, 766, -10278,
  773, -9512, 777, -8739, 783, -7962, 786, -7179,
  791, -6393, 794, -5602, 797, -4808, 799, -4011,
  802, -3212, 802, -2410, 804, -1608, 804, -804]

/-- Slope entry of segment `i` of the sine table (`dy[i]`, at offset `2*i`). -/
def sinDy (i : Nat) : Int := sinTable.getD (2 * i) 0

/-- Intercept entry of segment `i` of the sine table (`y0[i]`, offset `2*i+1`). -/
def sinY0 (i : Nat) : Int := sinTable.getD (2 * i + 1) 0

/-- Embedding of `sin_Q15` (fp_lib_trig.h).  On the unsigned 16-bit pattern
`xu` of the argument: `lsr xu, #8` selects the segment index; `sl xu, #8`
forms the intra-segment offset `f` in the upper byte; `mul.us` multiplies the
unsigned `f` with the signed slope, and the high product word (arithmetic
scaling by 2^-16, i.e. floor division) is added to the intercept with a
wrapping 16-bit `add`. -/
def sin_Q15 (x : Int) : Int :=
  toInt16W (sinY0 ((x % 65536).toNat / 256) +
    ((x % 65536).toNat % 256 * 256 : Nat) * sinDy ((x % 65536).toNat / 256) / 65536)

/-- Bounds of one extrapolation segment of the sine table at its two extreme
intra-segment offsets (`f = 0` and the largest offset `f = 65280`). -/
abbrev sinSegBounded (i : Nat) : Prop :=
  -32767 ≤ sinY0 i ∧ sinY0 i ≤ 32767 ∧
    -32767 ≤ sinY0 i + 65280 * sinDy i / 65536 ∧
    sinY0 i + 65280 * sinDy i / 65536 ≤ 32767

/-!
Helper lemmas shared by the claim theorems.
-/

/-- XOR with an all-ones word of width `k` is the one's complement within
that width. -/
theorem xor_all_ones : ∀ k n : Nat, n < 2 ^ k → n ^^^ (2 ^ k - 1) = 2 ^ k - 1 - n := by
  intro k
  induction k with
  | zero =>
    intro n hn
    have hn0 : n = 0 := by omega
    subst hn0
    simp
  | succ k ih =>
    intro n hn
    have hpos : 0 < 2 ^ k := Nat.two_pow_pos k
    have hp : 2 ^ (k + 1) = 2 * 2 ^ k := by rw [Nat.pow_succ, Nat.mul_comm]
    have hdiv : (n ^^^ (2 ^ (k + 1) - 1)) / 2 = 2 ^ k - 1 - n / 2 := by
      rw [Nat.xor_div_two]
      have hh : (2 ^ (k + 1) - 1) / 2 = 2 ^ k - 1 := by omega
      rw [hh]
      exact ih (n / 2) (by omega)
    have hmod : (n ^^^ (2 ^ (k + 1) - 1)) % 2 = (n + (2 ^ (k + 1) - 1)) % 2 :=
      Nat.xor_mod_two_eq
    omega

/-- One's complement on a 16-bit word. -/
theorem xor_ones16 {n : Nat} (h : n < 65536) : n ^^^ 65535 = 65535 - n := by
  have h16 := xor_all_ones 16 n (by norm_num; omega)
  norm_num at h16
  exact h16

/-- Masking with an all-ones 16-bit word. -/
theorem land_ones16 (n : Nat) : n &&& 65535 = n % 65536 := by
  have h := Nat.and_pow_two_sub_one_eq_mod n 16
  norm_num at h
  exact h

/-- Storing a value already in the signed 16-bit range is the identity. -/
theorem toInt16W_eq {z : Int} (h1 : -32768 ≤ z) (h2 : z ≤ 32767) : toInt16W z = z := by
  unfold toInt16W
  split <;> omega

/-- On nonnegative arguments the naive conversion computes
`2 * arg + (arg >> 14)`, which stays below 2^16. -/
theorem convert_Q15_Q16_Naive_val {x : Int} (h0 : 0 ≤ x) (h1 : x ≤ 32767) :
    (convert_Q15_Q16_Naive x : Int) = 2 * x + x / 16384 := by
  unfold convert_Q15_Q16_Naive
  omega

/-- On nonnegative arguments the saturation mask is all-ones, so the
saturating conversion agrees with the naive one. -/
theorem convert_Q15_Q16_eq_naive {x : Int} (h0 : 0 ≤ x) (h1 : x ≤ 32767) :
    convert_Q15_Q16 x = convert_Q15_Q16_Naive x := by
  unfold convert_Q15_Q16
  have hs : ((-1 - x / 32768) % 65536).toNat = 65535 := by omega
  rw [hs, land_ones16]
  unfold convert_Q15_Q16_Naive
  omega

/-- On negative arguments the saturation mask is zero, so the saturating
conversion clips to zero. -/
theorem convert_Q15_Q16_neg {x : Int} (h0 : -32768 ≤ x) (h1 : x < 0) :
    convert_Q15_Q16 x = 0 := by
  unfold convert_Q15_Q16
  have hs : ((-1 - x / 32768) % 65536).toNat = 0 := by omega
  rw [hs]
  simp

/-!
Claim theorems.
-/

/-- C1: the table-driven sine is exact at the key phases: `sin_Q15 0 = 0`;
`sin_Q15 0x4000` (phase π/2) is within 1 LSB of 0x7FFF; `sin_Q15 (-0x8000)`
(phase -π) is within 1 LSB of 0. -/
theorem sin_Q15_key_phases :
    sin_Q15 0 = 0 ∧ (sin_Q15 16384 - 32767).natAbs ≤ 1 ∧ (sin_Q15 (-32768)).natAbs ≤ 1 := by
  refine ⟨by decide, by decide, by decide⟩

/-- C2: dividing 0.5 by 0.5 in Q0.16 yields exactly 1.0 in Q16.16 (the
denominator 0x8000 is nonzero, satisfying the caller contract). -/
theorem div_Q16_Q16_half_half : div_Q16_Q16 32768 32768 = 65536 := by decide

/-- C3: `abs_Q15` maps 0x8000 to 0x7FFF and is the standard two's-complement
absolute value everywhere else; in particular `abs_Q15 (-5) = 5` and
`abs_Q15 5 = 5`. -/
theorem abs_Q15_spec :
    (∀ x : Int, -32768 ≤ x → x ≤ 32767 →
      abs_Q15 x = if x = -32768 then 32767 else if x < 0 then -x else x) ∧
    abs_Q15 (-5) = 5 ∧ abs_Q15 5 = 5 := by
  refine ⟨?_, by decide, by decide⟩
  intro x hlo hhi
  by_cases hmin : x = -32768
  · subst hmin
    decide
  rw [if_neg hmin]
  simp only [abs_Q15]
  have hv : ¬ (x % 65536).toNat = 32768 := by omega
  simp only [if_neg hv]
  by_cases hneg : x < 0
  · rw [if_pos hneg]
    rw [if_pos (show 32768 ≤ (x % 65536).toNat by omega)]
    have hs : ((x % 65536).toNat + 65535) % 65536 = (x % 65536).toNat - 1 := by omega
    rw [hs]
    rw [xor_ones16 (by omega)]
    have h2 : (65535 - ((x % 65536).toNat - 1) : Nat) = (-x).toNat := by omega
    rw [h2]
    have h3 : (((-x).toNat : Nat) : Int) = -x := by omega
    rw [h3]
    exact toInt16W_eq (by omega) (by omega)
  · rw [if_neg hneg]
    rw [if_neg (show ¬ 32768 ≤ (x % 65536).toNat by omega)]
    have hs : ((x % 65536).toNat + 0) % 65536 = x.toNat := by omega
    rw [hs]
    rw [Nat.xor_zero]
    have h3 : ((x.toNat : Nat) : Int) = x := by omega
    rw [h3]
    exact toInt16W_eq (by omega) (by omega)

/-- Witness for C3 at the concrete inputs -7 and 7. -/
theorem abs_Q15_spec_witness :
    abs_Q15 (-7) = if (-7 : Int) = -32768 then 32767 else if (-7 : Int) < 0 then -(-7) else -7 :=
  abs_Q15_spec.1 (-7) (by decide) (by decide)

/-- C4: the saturating Q0.15 → Q0.16 conversion returns 0 on every negative
input and agrees with the naive conversion on every nonnegative input. -/
theorem convert_Q15_Q16_saturating_spec :
    ∀ x : Int, -32768 ≤ x → x ≤ 32767 →
      (x < 0 → convert_Q15_Q16 x = 0) ∧
      (0 ≤ x → convert_Q15_Q16 x = convert_Q15_Q16_Naive x) := by
  intro x hlo hhi
  exact ⟨fun hneg => convert_Q15_Q16_neg hlo hneg,
         fun hpos => convert_Q15_Q16_eq_naive hpos hhi⟩

/-- Witness for C4 at the concrete inputs -123 and 123. -/
theorem convert_Q15_Q16_saturating_spec_witness :
    convert_Q15_Q16 (-123) = 0 ∧ convert_Q15_Q16 123 = convert_Q15_Q16_Naive 123 :=
  ⟨(convert_Q15_Q16_saturating_spec (-123) (by decide) (by decide)).1 (by decide),
   (convert_Q15_Q16_saturating_spec 123 (by decide) (by decide)).2 (by decide)⟩

/-- C5 counterexample: at the input 0x4000 the naive conversion does not
return `2 * arg`; it returns `2 * arg + 1` because of the `arg >> 14` term. -/
theorem convert_Q15_Q16_Naive_not_shift :
    ¬ convert_Q15_Q16_Naive 16384 = 2 * 16384 := by decide

/-- C5 (amended): for a nonnegative Q0.15 input the naive conversion returns
`2 * arg` plus the `arg >> 14` replication bit: exactly `2 * arg` for
`arg < 0x4000` and exactly `2 * arg + 1` for `arg ≥ 0x4000`. -/
theorem convert_Q15_Q16_Naive_nonneg_val :
    ∀ x : Int, 0 ≤ x → x ≤ 32767 →
      (convert_Q15_Q16_Naive x : Int) = 2 * x + (if 16384 ≤ x then 1 else 0) := by
  intro x h0 h1
  rw [convert_Q15_Q16_Naive_val h0 h1]
  by_cases h : (16384 : Int) ≤ x
  · rw [if_pos h]
    omega
  · rw [if_neg h]
    omega

/-- Witness for the amended C5 at the concrete input 20000. -/
theorem convert_Q15_Q16_Naive_nonneg_val_witness :
    (convert_Q15_Q16_Naive 20000 : Int) = 2 * 20000 + (if (16384 : Int) ≤ 20000 then 1 else 0) :=
  convert_Q15_Q16_Naive_nonneg_val 20000 (by decide) (by decide)

/-- C6: for every x in [0, 0x7FFF], converting Q0.15 → Q0.16 → Q0.15 yields a
value within 1 LSB of x (in fact the round trip is exact). -/
theorem convert_roundtrip_within_one :
    ∀ x : Int, 0 ≤ x → x ≤ 32767 →
      (convert_Q16_Q15 (convert_Q15_Q16 x) - x).natAbs ≤ 1 := by
  intro x h0 h1
  rw [convert_Q15_Q16_eq_naive h0 h1]
  have hv := convert_Q15_Q16_Naive_val h0 h1
  have hn : convert_Q15_Q16_Naive x < 65536 := by
    unfold convert_Q15_Q16_Naive
    omega
  unfold convert_Q16_Q15
  rw [Nat.mod_eq_of_lt hn]
  omega

/-- Witness for C6 at the concrete input 12345. -/
theorem convert_roundtrip_within_one_witness :
    (convert_Q16_Q15 (convert_Q15_Q16 12345) - 12345).natAbs ≤ 1 :=
  convert_roundtrip_within_one 12345 (by decide) (by decide)

/-- Value of `mul_Q1616_Q16` on in-range operands: the exact product scaled
by 2^-16 (it never wraps, so no reduction modulo 2^32 is needed). -/
theorem mul_Q1616_Q16_val {a c : Nat} (ha : a < 4294967296) (hc : c < 65536) :
    mul_Q1616_Q16 a c = a * c / 65536 := by
  unfold mul_Q1616_Q16 uHigh uLow
  rw [Nat.mod_eq_of_lt (show a / 65536 < 65536 by omega)]
  have hQb : a % 65536 * c ≤ 65535 * 65535 := Nat.mul_le_mul (by omega) (by omega)
  rw [Nat.mod_eq_of_lt (show a % 65536 * c / 65536 < 65536 by omega)]
  have hPb : a / 65536 * c ≤ 65535 * 65535 := Nat.mul_le_mul (by omega) (by omega)
  have hexp : a * c = 65536 * (a / 65536 * c) + a % 65536 * c := by
    conv_lhs => rw [← Nat.div_add_mod a 65536]
    ring
  omega

/-- Value of `mul_Q1616_UINT` on in-range operands: the exact product
wrapped to 32 bits. -/
theorem mul_Q1616_UINT_val {a c : Nat} (ha : a < 4294967296) (hc : c < 65536) :
    mul_Q1616_UINT a c = a * c % 4294967296 := by
  unfold mul_Q1616_UINT uHigh uLow
  rw [Nat.mod_eq_of_lt (show a / 65536 < 65536 by omega)]
  have hQb : a % 65536 * c ≤ 65535 * 65535 := Nat.mul_le_mul (by omega) (by omega)
  have hPb : a / 65536 * c ≤ 65535 * 65535 := Nat.mul_le_mul (by omega) (by omega)
  have hexp : a * c = 65536 * (a / 65536 * c) + a % 65536 * c := by
    conv_lhs => rw [← Nat.div_add_mod a 65536]
    ring
  omega

/-- C7: for all 32-bit Q16.16 operands, `mul_Q1616_Q1616` computes the long
multiplication `floor (a * b / 2^16) mod 2^32`. -/
theorem mul_Q1616_Q1616_long_mul :
    ∀ a b : Nat, a < 4294967296 → b < 4294967296 →
      mul_Q1616_Q1616 a b = a * b / 65536 % 4294967296 := by
  intro a b ha hb
  unfold mul_Q1616_Q1616
  have hbh : uHigh b < 65536 := by
    unfold uHigh
    omega
  have hbl : uLow b < 65536 := by
    unfold uLow
    omega
  rw [mul_Q1616_UINT_val ha hbh, mul_Q1616_Q16_val ha hbl]
  unfold uHigh uLow
  rw [Nat.mod_eq_of_lt (show b / 65536 < 65536 by omega)]
  have hexp : a * b = 65536 * (a * (b / 65536)) + a * (b % 65536) := by
    conv_lhs => rw [← Nat.div_add_mod b 65536]
    ring
  have h1 : a * (b / 65536) ≤ 4294967295 * 65535 := Nat.mul_le_mul (by omega) (by omega)
  have h2 : a * (b % 65536) ≤ 4294967295 * 65535 := Nat.mul_le_mul (by omega) (by omega)
  omega

/-- Witness for C7 at the concrete operands 1.5 and 2.5 (Q16.16). -/
theorem mul_Q1616_Q1616_long_mul_witness :
    mul_Q1616_Q1616 98304 163840 = 98304 * 163840 / 65536 % 4294967296 :=
  mul_Q1616_Q1616_long_mul 98304 163840 (by decide) (by decide)

/-- Saturating a value already in the signed 16-bit range is the identity. -/
theorem sat16_id {z : Int} (h1 : -32768 ≤ z) (h2 : z ≤ 32767) : sat16 z = z := by
  unfold sat16
  split_ifs <;> omega

/-- Rounding an accumulator holding an exact multiple of 2^16. -/
theorem convRound_mul (z : Int) : convRound (z * 65536) = z := by
  unfold convRound
  rw [Int.mul_emod_left, Int.mul_ediv_cancel z (by norm_num)]
  norm_num

/-- Rounding an accumulator within `t` of an exact multiple of 2^16 lands
within 2 of that multiple when `abs t < 2^17`. -/
theorem convRound_near {z t : Int} (h1 : -131070 ≤ t) (h2 : t ≤ 131070) :
    (convRound (z * 65536 + t) - z).natAbs ≤ 2 := by
  unfold convRound
  have e1 : (z * 65536 + t) % 65536 = t % 65536 := by
    rw [Int.add_comm]
    exact Int.add_mul_emod_self
  have e2 : (z * 65536 + t) / 65536 = t / 65536 + z := by
    rw [Int.add_comm]
    exact Int.add_mul_ediv_right t z (by norm_num)
  rw [e1, e2]
  split_ifs <;> omega

/-- C8 counterexample: at x = 0xFFFF with y1 = 0x7FFF and y2 = -0x8000 the
interpolation result differs from y2 by 2 LSB, not 1. -/
theorem interpLinear_top_not_within_one :
    ¬ (interpLinear 32767 (-32768) 65535 - (-32768)).natAbs ≤ 1 := by decide

/-- C8 (amended): for Q0.15 samples, `interpLinear y1 y2 0 = y1` exactly, and
at the top of the Q0.16 range (x = 0xFFFF) the result is within 2 LSB of y2
(the deviation reaches 2 when the samples are a full range apart). -/
theorem interpLinear_boundary :
    ∀ y1 y2 : Int, -32768 ≤ y1 → y1 ≤ 32767 → -32768 ≤ y2 → y2 ≤ 32767 →
      interpLinear y1 y2 0 = y1 ∧ (interpLinear y1 y2 65535 - y2).natAbs ≤ 2 := by
  intro y1 y2 ha hb hc hd
  constructor
  · unfold interpLinear
    have hx0 : ((0 % 65536 / 2 : Nat) : Int) = 0 := by norm_num
    rw [hx0]
    have hA : y1 * 65536 - 2 * (y1 * 0) + 2 * (y2 * 0) = y1 * 65536 := by ring
    rw [hA, convRound_mul]
    exact sat16_id ha hb
  · unfold interpLinear
    have hx1 : ((65535 % 65536 / 2 : Nat) : Int) = 32767 := by norm_num
    rw [hx1]
    have hA : y1 * 65536 - 2 * (y1 * 32767) + 2 * (y2 * 32767) =
        y2 * 65536 + 2 * (y1 - y2) := by ring
    rw [hA]
    have hnear := convRound_near (z := y2) (t := 2 * (y1 - y2)) (by omega) (by omega)
    unfold sat16
    split_ifs <;> omega

/-- Witness for the amended C8 at the concrete samples 3 and -7. -/
theorem interpLinear_boundary_witness :
    interpLinear 3 (-7) 0 = 3 ∧ (interpLinear 3 (-7) 65535 - (-7)).natAbs ≤ 2 :=
  ⟨(interpLinear_boundary 3 (-7) (by decide) (by decide) (by decide) (by decide)).1,
   (interpLinear_boundary 3 (-7) (by decide) (by decide) (by decide) (by decide)).2⟩

/-- C9 counterexample: the intercept sequence of the sine table is not
non-decreasing-then-non-increasing for any split point: it already decreases
from index 64 to 65 (32767 to 32757) yet increases again from index 192 to
193 (-32767 to -32757). -/
theorem sinTable_intercepts_not_unimodal :
    ¬ ∃ k : Nat,
      (∀ i : Nat, i < k → i + 1 < 256 → sinY0 i ≤ sinY0 (i + 1)) ∧
      (∀ i : Nat, k ≤ i → i + 1 < 256 → sinY0 (i + 1) ≤ sinY0 i) := by
  rintro ⟨k, h1, h2⟩
  rcases le_or_lt k 192 with hk | hk
  · have h := h2 192 hk (by norm_num)
    revert h
    decide
  · have h := h1 64 (by omega) (by norm_num)
    revert h
    decide

set_option maxHeartbeats 2000000 in
set_option maxRecDepth 10000 in
/-- C9 (amended): the intercept sequence follows one full sine period: it is
non-decreasing on indices [0, 64], non-increasing on [64, 192] and
non-decreasing again on [192, 255]. -/
theorem sinTable_intercepts_shape :
    (∀ i : Nat, i < 64 → sinY0 i ≤ sinY0 (i + 1)) ∧
    (∀ i : Nat, i < 192 → 64 ≤ i → sinY0 (i + 1) ≤ sinY0 i) ∧
    (∀ i : Nat, i < 255 → 192 ≤ i → sinY0 i ≤ sinY0 (i + 1)) := by
  refine ⟨by decide, by decide, by decide⟩

/-- Witness for the amended C9 at the concrete indices 10, 100 and 200. -/
theorem sinTable_intercepts_shape_witness :
    sinY0 10 ≤ sinY0 (10 + 1) ∧ sinY0 (100 + 1) ≤ sinY0 100 ∧ sinY0 200 ≤ sinY0 (200 + 1) :=
  ⟨sinTable_intercepts_shape.1 10 (by decide),
   sinTable_intercepts_shape.2.1 100 (by decide) (by decide),
   sinTable_intercepts_shape.2.2 200 (by decide) (by decide)⟩

set_option maxHeartbeats 2000000 in
set_option maxRecDepth 10000 in
/-- Every segment of the sine table stays within [-32767, 32767] at both
extreme intra-segment offsets. -/
theorem sinSeg_all : ∀ i : Nat, i < 256 → sinSegBounded i := by decide

/-- C10: `sin_Q15` always returns a value in [-32767, 32767]; in particular
it never returns 0x8000. -/
theorem sin_Q15_range :
    ∀ x : Int, -32768 ≤ x → x ≤ 32767 → -32767 ≤ sin_Q15 x ∧ sin_Q15 x ≤ 32767 := by
  intro x h1 h2
  unfold sin_Q15
  have hxu : (x % 65536).toNat < 65536 := by omega
  have hi : (x % 65536).toNat / 256 < 256 := by omega
  obtain ⟨hA, hB, hC, hD⟩ := sinSeg_all ((x % 65536).toNat / 256) hi
  set f : Int := (((x % 65536).toNat % 256 * 256 : Nat) : Int) with hfdef
  set d : Int := sinDy ((x % 65536).toNat / 256) with hddef
  set y : Int := sinY0 ((x % 65536).toNat / 256) with hydef
  have hf0 : (0 : Int) ≤ f := by omega
  have hf1 : f ≤ 65280 := by omega
  rcases le_or_lt 0 d with hd | hd
  · have hm0 : 0 ≤ f * d := mul_nonneg hf0 hd
    have hm1 : f * d ≤ 65280 * d := mul_le_mul_of_nonneg_right hf1 hd
    have hq0 : 0 ≤ f * d / 65536 := Int.ediv_nonneg hm0 (by norm_num)
    have hq1 : f * d / 65536 ≤ 65280 * d / 65536 :=
      Int.ediv_le_ediv (by norm_num) hm1
    rw [toInt16W_eq (by omega) (by omega)]
    exact ⟨by omega, by omega⟩
  · have hm0 : f * d ≤ 0 := by
      have h := mul_le_mul_of_nonneg_left (le_of_lt hd) hf0
      simpa using h
    have hm1 : 65280 * d ≤ f * d := mul_le_mul_of_nonpos_right hf1 (le_of_lt hd)
    have hq0 : f * d / 65536 ≤ 0 := by
      have h := Int.ediv_le_ediv (show (0 : Int) < 65536 by norm_num) hm0
      simpa using h
    have hq1 : 65280 * d / 65536 ≤ f * d / 65536 :=
      Int.ediv_le_ediv (by norm_num) hm1
    rw [toInt16W_eq (by omega) (by omega)]
    exact ⟨by omega, by omega⟩

/-- Witness for C10 at the concrete phase 12345. -/
theorem sin_Q15_range_witness : -32767 ≤ sin_Q15 12345 ∧ sin_Q15 12345 ≤ 32767 :=
  sin_Q15_range 12345 (by decide) (by decide)

end FPLib
